import Mathlib

/-! Verification development for the workspace switching and window
cycling core of the NEXTSPACE window manager (switchpanel.c and
workspace.c).  The C sources are embedded shallowly: pointers become
stable numeric handles, the doubly linked most-recently-focused window
list becomes an ordinary list with the focused window at its head, and
external side effects (painting, real X mapping, the event flush) are
either recorded as trace actions or modelled by their documented effect
on the window flags. -/

namespace NextSpace

/-- A managed window.  Pointer identity is modelled by the stable
client_win handle.  The frame is folded into the window: frame->workspace
becomes the workspace field (frames of managed windows are assumed
present).  IS_OMNIPRESENT is collapsed into one flag. -/
structure WWindow where
  client_win : Nat
  wm_class : Option String
  wm_instance : String
  is_gnustep : Bool
  workspace : Nat
  mapped : Bool
  shaded : Bool
  miniaturized : Bool
  hidden : Bool
  omnipresent : Bool
  selected : Bool
  changing_workspace : Bool
  no_focusable : Bool
  skip_switchpanel : Bool
  main_window : Nat
  window_level : Int
  has_icon : Bool
  icon_mapped : Bool
  head : Nat
deriving DecidableEq, Inhabited

/-- A running application (wapp_list entry), as needed by the switch
panel application mode and by the omnipresent-window bookkeeping of a
workspace transition. -/
structure WApplication where
  main_window : Nat
  is_gnustep : Bool
  menu_win : Option WWindow
  main_window_desc : Option WWindow
  windows : List WWindow
  last_focused : Option WWindow
  last_workspace : Nat
deriving DecidableEq, Inhabited

/-- A workspace: display name, auxiliary clip dock presence, and the
saved copy of the last focused window (a copy, not a live reference). -/
structure WWorkspace where
  name : String
  has_clip : Bool
  focused_window : Option WWindow
deriving DecidableEq, Inhabited

/-- The wPreferences fields read by the embedded code. -/
structure WMPrefs where
  cycle_active_head_only : Bool
  cycle_ignore_minimized : Bool
  sticky_icons : Bool
  swtileImage : Bool
  noclip : Bool
deriving DecidableEq, Inhabited

/-- Modelled from the spec: MAX_WORKSPACES is the fixed workspace
capacity limit declared in headers outside src/. -/
def MAX_WORKSPACES : Nat := 100

/-- Modelled from the spec: MAX_WORKSPACENAME_WIDTH is the fixed maximum
workspace name length declared in headers outside src/. -/
def MAX_WORKSPACENAME_WIDTH : Nat := 64

/-- Modelled from the spec: the AppKit main-menu window level constant;
only its inequality with other levels matters here. -/
def NSMainMenuWindowLevel : Int := 24

def ICON_TILE_SIZE : Nat := 64

def SCREEN_BORDER_SPACING : Nat := 40

/-- The screen state.  The windows list is the focus chain in
most-recently-focused order, head = scr->focused_window, traversal by
the prev pointers. -/
structure WScreen where
  workspaces : List WWorkspace
  current_workspace : Nat
  last_workspace : Nat
  windows : List WWindow
  apps : List WApplication
  ignore_focus_events : Bool
  startup : Bool
  startup2 : Bool
deriving DecidableEq, Inhabited

/-- canReceiveFocus (switchpanel.c lines 93-113): 0 = No, -1 = SoftNo
(unmapped but shaded, miniaturized or hidden), 1 = Yes. -/
def canReceiveFocus (prefs : WMPrefs) (current_workspace pointerHead : Nat)
    (wwin : WWindow) : Int :=
  if wwin.workspace != current_workspace then 0
  else if prefs.cycle_active_head_only && (wwin.head != pointerHead) then 0
  else if wwin.no_focusable then 0
  else if !wwin.mapped then
    if !wwin.shaded && !wwin.miniaturized && !wwin.hidden then 0 else -1
  else 1

/-- sameWindowClass (switchpanel.c lines 115-128): class equality with
the GNUstep instance special case on the second argument. -/
def sameWindowClass (wwin curwin : WWindow) : Bool :=
  match wwin.wm_class, curwin.wm_class with
  | some wclass, some cclass =>
    if (curwin.is_gnustep || cclass == "GNUstep") && (wwin.wm_instance != curwin.wm_instance) then
      false
    else if wclass != cclass then
      false
    else
      true
  | _, _ => false

/-- The representative window chosen for an application in application
mode (makeWindowListArray, switchpanel.c lines 393-421). -/
def appRepresentative (wapp : WApplication) : Option WWindow :=
  if wapp.is_gnustep then
    match wapp.menu_win with
    | some w => some w
    | none => wapp.main_window_desc
  else if 0 < wapp.windows.length then
    match wapp.last_focused with
    | some w => some w
    | none => wapp.windows.head?
  else none

/-- makeWindowListArray (switchpanel.c lines 385-441): application mode
when class_only is false, filtered focus-chain traversal otherwise. -/
def makeWindowListArray (prefs : WMPrefs) (scr : WScreen) (pointerHead : Nat)
    (include_unmapped : Bool) (class_only : Bool) : List WWindow :=
  if !class_only then
    scr.apps.filterMap appRepresentative
  else
    scr.windows.filter fun w =>
      decide (canReceiveFocus prefs scr.current_workspace pointerHead w ≠ 0) &&
      (w.mapped || w.shaded || include_unmapped) &&
      !w.skip_switchpanel &&
      sameWindowClass (scr.windows.headD default) w

/-- The switch panel state fields that the panel logic reads and
writes. -/
structure WSwitchPanel where
  windows : List WWindow
  current : Int
  firstVisible : Int
  visibleCount : Int
deriving DecidableEq, Inhabited

/-- CFArrayGetFirstIndexOfValue over the candidate array: the first
index whose window has the same identity (pointer identity, modelled by
the stable client_win handle), or -1 (kCFNotFound) when absent. -/
def indexOfWindow : List WWindow → WWindow → Int
  | [], _ => -1
  | w :: rest, x =>
    if w.client_win == x.client_win then 0
    else
      let r := indexOfWindow rest x
      if r < 0 then -1 else r + 1

/-- wInitSwitchPanel (switchpanel.c lines 454-591), restricted to the
panel state.  The panel struct comes from wmalloc, which zero fills, so
current and firstVisible start at 0; when no tile image is configured
the function returns before the current assignment at lines 581-586. -/
def wInitSwitchPanel (prefs : WMPrefs) (scr : WScreen) (pointerHead headWidth : Nat)
    (curwin : WWindow) (class_only : Bool) : Option WSwitchPanel :=
  let windows := makeWindowListArray prefs scr pointerHead prefs.swtileImage class_only
  let win_count := windows.length
  if win_count == 0 then none
  else
    let width := ICON_TILE_SIZE * win_count
    let iconsThatFitCount :=
      if headWidth < width then (headWidth - SCREEN_BORDER_SPACING) / ICON_TILE_SIZE
      else win_count
    let panel : WSwitchPanel :=
      { windows := windows, current := 0, firstVisible := 0,
        visibleCount := (iconsThatFitCount : Int) }
    if !prefs.swtileImage then some panel
    else some { panel with current := indexOfWindow windows curwin }

/-- One advance step of wSwitchPanelSelectNext: current is incremented
or decremented and renormalised with (count + current) % count, C
truncating remainder. -/
def stepIdx (count : Nat) (back : Bool) (cur : Int) : Int :=
  if back then Int.tmod ((count : Int) + (cur - 1)) (count : Int)
  else Int.tmod ((count : Int) + (cur + 1)) (count : Int)

/-- The inner do-while of wSwitchPanelSelectNext (lines 671-684): step,
then break when not class_only, when back at the original index, or when
the class matches.  The C loop always breaks within count steps, so it
is given count as fuel by its caller. -/
def innerLoop (ws : List WWindow) (curwin : WWindow) (orig : Int)
    (back class_only : Bool) : Nat → Int → Int
  | 0, cur => cur
  | fuel + 1, cur =>
    let cur' := stepIdx ws.length back cur
    let wwin := ws.getD cur'.toNat default
    if !class_only then cur'
    else if cur' == orig then cur'
    else if sameWindowClass wwin curwin then cur'
    else innerLoop ws curwin orig back class_only fuel cur'

/-- The outer do-while of wSwitchPanelSelectNext (lines 670-685):
repeat the inner loop while ignore_minimized is in effect, the index
moved, and the landed window is SoftNo eligible. -/
def outerLoop (prefs : WMPrefs) (cws ph : Nat) (ws : List WWindow) (curwin : WWindow)
    (orig : Int) (back class_only ign : Bool) : Nat → Int → Int
  | 0, cur => cur
  | fuel + 1, cur =>
    let cur' := innerLoop ws curwin orig back class_only ws.length cur
    let wwin := ws.getD cur'.toNat default
    if ign && !(cur' == orig) && decide (canReceiveFocus prefs cws ph wwin < 0) then
      outerLoop prefs cws ph ws curwin orig back class_only ign fuel cur'
    else cur'

/-- scrollIcons (switchpanel.c lines 229-257), restricted to the
firstVisible state. -/
def scrollIcons (panel : WSwitchPanel) (delta : Int) : WSwitchPanel :=
  let nfirst := panel.firstVisible + delta
  let count : Int := panel.windows.length
  if count ≤ panel.visibleCount then panel
  else
    let nfirst :=
      if nfirst < 0 then 0
      else if nfirst ≥ count - panel.visibleCount then count - panel.visibleCount
      else nfirst
    if nfirst == panel.firstVisible then panel
    else { panel with firstVisible := nfirst }

/-- The downgrade of the ignore_minimized argument at the head of
wSwitchPanelSelectNext (lines 662-667): the preference gates it, and it
is dropped when the currently selected candidate is itself SoftNo
eligible. -/
def effIgnoreMinimized (prefs : WMPrefs) (cws ph : Nat) (ws : List WWindow) (orig : Int)
    (ignore_minimized : Bool) : Bool :=
  let ign := if !prefs.cycle_ignore_minimized then false else ignore_minimized
  if ign && decide (canReceiveFocus prefs cws ph
      (ws.getD (Int.tmod ((ws.length : Int) + orig) (ws.length : Int)).toNat default) < 0) then
    false
  else ign

/-- wSwitchPanelSelectNext (switchpanel.c lines 651-722), restricted to
the panel state and the returned window; painting and title drawing are
omitted.  cws and ph are the current workspace and the pointer head read
through the screen by canReceiveFocus. -/
def wSwitchPanelSelectNext (prefs : WMPrefs) (cws ph : Nat) (panel : WSwitchPanel)
    (back ignore_minimized class_only : Bool) : WSwitchPanel × Option WWindow :=
  let count := panel.windows.length
  let orig := panel.current
  if count == 0 || decide (orig < 0) then (panel, none)
  else
    let ign := effIgnoreMinimized prefs cws ph panel.windows orig ignore_minimized
    let curwin := panel.windows.getD orig.toNat default
    let cur := outerLoop prefs cws ph panel.windows curwin orig back class_only ign count orig
    let wwin := panel.windows.getD cur.toNat default
    let panel := { panel with current := cur }
    let panel :=
      if panel.current < panel.firstVisible then
        scrollIcons panel (panel.current - panel.firstVisible)
      else if panel.current - panel.firstVisible ≥ panel.visibleCount then
        scrollIcons panel (panel.current - panel.firstVisible - panel.visibleCount + 1)
      else panel
    (panel, some wwin)

/-- Modelled from the spec: wWindowChangeWorkspace (window.c, outside
src/) moves a selected window to the target workspace outright. -/
def wWindowChangeWorkspace (w : WWindow) (workspace : Nat) : WWindow :=
  { w with workspace := workspace }

/-- Modelled from the spec: wWindowUnmap (window.c, outside src/) unmaps
a window; step 4 of the transition applies the unmap queue. -/
def wWindowUnmap (w : WWindow) : WWindow := { w with mapped := false }

/-- Modelled from the spec: wWindowMap (window.c, outside src/) maps a
window; step 4 of the transition applies the map queue after the unmap
queue. -/
def wWindowMap (w : WWindow) : WWindow := { w with mapped := true }

/-- The update of the owning application last active workspace performed
for an omnipresent window (workspace.c lines 646-651): wApplicationOf
looks the application up by the main_window handle. -/
def wAppsUpdateLastWorkspace (apps : List WApplication) (w : WWindow) (target : Nat) :
    List WApplication :=
  if w.window_level != NSMainMenuWindowLevel then
    apps.map fun a =>
      if a.main_window == w.main_window then { a with last_workspace := target } else a
  else apps

/-- The per-window effect of the partition loop of wWorkspaceForceChange
(workspace.c lines 631-690): the transformed window plus its membership
in the unmap and map queues. -/
def partitionOne (prefs : WMPrefs) (target : Nat) (w : WWindow) : WWindow × Bool × Bool :=
  if w.workspace != target && !w.selected then
    let unmapQ := !w.omnipresent && (w.mapped || w.shaded) && !w.changing_workspace
    let w1 := if w.omnipresent then { w with workspace := target } else w
    let w2 :=
      if !prefs.sticky_icons && w1.miniaturized && w1.has_icon && !w1.omnipresent then
        { w1 with icon_mapped := false }
      else w1
    (w2, unmapQ, false)
  else if w.selected then
    (wWindowChangeWorkspace w target, false, false)
  else
    let mapQ := !w.hidden && !(w.mapped || w.miniaturized)
    let w1 :=
      if !w.hidden && !prefs.sticky_icons && w.miniaturized && !w.omnipresent && w.has_icon then
        { w with icon_mapped := true }
      else w
    (w1, false, mapQ)

/-- The partition loop of wWorkspaceForceChange (workspace.c lines
631-690) over the focus chain: transforms each window (partitionOne),
updates the application list for omnipresent windows, and records the
first selected unminiaturized window as focus candidate. -/
def partitionLoop (prefs : WMPrefs) (target : Nat) :
    List WWindow → List WApplication → Option WWindow →
    List (WWindow × Bool × Bool) × List WApplication × Option WWindow
  | [], apps, foc => ([], apps, foc)
  | w :: rest, apps, foc =>
    let apps' :=
      if w.workspace != target && !w.selected && w.omnipresent then
        wAppsUpdateLastWorkspace apps w target
      else apps
    let foc' :=
      if w.selected && !w.miniaturized && foc.isNone then
        some (wWindowChangeWorkspace w target)
      else foc
    let r := partitionLoop prefs target rest apps' foc'
    (partitionOne prefs target w :: r.1, r.2)

/-- The net effect of step 4 on one queued window. -/
def applyQueueEntry (e : WWindow × Bool × Bool) : WWindow :=
  if e.2.1 then wWindowUnmap e.1 else if e.2.2 then wWindowMap e.1 else e.1

/-- Step 4 of the transition: the unmap queue is applied, then the map
queue (workspace.c lines 693-698); the queues are disjoint per window,
so the net effect is per window. -/
def applyMapsUnmaps (l : List (WWindow × Bool × Bool)) : List WWindow :=
  l.map applyQueueEntry

/-- The observable actions of a workspace transition, in program
order. -/
inductive WMAction where
  | saveFocusSnapshot
  | setCurrentWorkspace
  | applyUnmaps
  | applyMaps
  | setIgnoreFocusEvents
  | flushPendingEvents
  | clearIgnoreFocusEvents
  | resolveFocus
  | setFocus
  | setLastWorkspaceFinal
  | postChangedNotification
deriving DecidableEq, Inhabited

/-- Result of a transition: final screen state, the focus handed to
wSetFocusTo when the focus block ran (some foc), and the action
trace. -/
structure ForceChangeResult where
  scr : WScreen
  focusSet : Option (Option WWindow)
  trace : List WMAction
deriving Inhabited

/-- wWindowCreate yields a zero initialised window (wmalloc zero
fills). -/
def wWindowCreate : WWindow := default

/-- wWorkspaceSaveFocusedWindow (workspace.c lines 564-588): stores a
copy holding only class, instance and client_win into the workspace
slot, or clears the slot. -/
def wWorkspaceSaveFocusedWindow (scr : WScreen) (workspace : Nat)
    (wwin : Option WWindow) : WScreen :=
  let saved := wwin.map fun w =>
    { wWindowCreate with
        wm_class := w.wm_class, wm_instance := w.wm_instance, client_win := w.client_win }
  { scr with
      workspaces := scr.workspaces.set workspace
        { scr.workspaces.getD workspace default with focused_window := saved } }

def defaultWorkspaceName (i : Nat) : String := "Workspace " ++ toString i

/-- wWorkspaceNew (workspace.c lines 399-448): appends a workspace with
the generated default name, returning the new index, or -1 at the
capacity limit. -/
def wWorkspaceNew (prefs : WMPrefs) (scr : WScreen) : WScreen × Int :=
  if scr.workspaces.length < MAX_WORKSPACES then
    let wspace : WWorkspace :=
      { name := defaultWorkspaceName (scr.workspaces.length + 1),
        has_clip := !prefs.noclip,
        focused_window := none }
    ({ scr with workspaces := scr.workspaces ++ [wspace] }, (scr.workspaces.length : Int))
  else (scr, -1)

/-- wWorkspaceMake (workspace.c lines 391-397): create count
workspaces. -/
def wWorkspaceMake (prefs : WMPrefs) (scr : WScreen) : Nat → WScreen
  | 0 => scr
  | n + 1 => wWorkspaceMake prefs (wWorkspaceNew prefs scr).1 n

/-- The growth step of wWorkspaceForceChange (workspace.c lines
599-600): create the missing workspaces up to the target index. -/
def growStep (prefs : WMPrefs) (scr : WScreen) (workspace : Int) : WScreen :=
  if workspace > (scr.workspaces.length : Int) - 1 then
    wWorkspaceMake prefs scr (workspace - (scr.workspaces.length : Int) + 1).toNat
  else scr

/-- The focus snapshot step of wWorkspaceForceChange (workspace.c lines
604-611): save a copy of the focused window into the outgoing workspace
slot when it belongs to the current workspace, clear the slot
otherwise. -/
def saveFocusSnapshotStep (scr : WScreen) : WScreen :=
  match scr.windows.head? with
  | some fw =>
    if fw.workspace == scr.current_workspace then
      wWorkspaceSaveFocusedWindow scr scr.current_workspace (some fw)
    else
      wWorkspaceSaveFocusedWindow scr scr.current_workspace none
  | none => wWorkspaceSaveFocusedWindow scr scr.current_workspace none

/-- wWorkspaceForceChange (workspace.c lines 590-790).  The pending
parameter stands for ProcessPendingEvents: collaborators may mutate the
window registry while the queued events are drained, so the
post-partition registry is passed through it.  External visual calls
(helper message, clip update, icon arrangement, dock painting, name
display) are omitted from the state; the ordered trace records the
actions the claims reason about. -/
def wWorkspaceForceChange (prefs : WMPrefs) (scr : WScreen) (workspace : Int)
    (focus_win : Option WWindow) (pending : List WWindow → List WWindow) :
    ForceChangeResult :=
  if workspace ≥ (MAX_WORKSPACES : Int) ∨ workspace < 0 ∨
      workspace = (scr.current_workspace : Int) then
    { scr := scr, focusSet := none, trace := [] }
  else
    let target : Nat := workspace.toNat
    let scr := growStep prefs scr workspace
    let scr := saveFocusSnapshotStep scr
    let scr := { scr with last_workspace := scr.current_workspace, current_workspace := target }
    match scr.windows with
    | [] =>
      { scr := { scr with last_workspace := target },
        focusSet := none,
        trace := [.saveFocusSnapshot, .setCurrentWorkspace, .setLastWorkspaceFinal,
                  .postChangedNotification] }
    | _ :: _ =>
      let p := partitionLoop prefs target scr.windows scr.apps none
      let ws1 := applyMapsUnmaps p.1
      let ws2 := pending ws1
      let foc0 := p.2.2
      let foc1 := match focus_win with | some f => some f | none => foc0
      let foc2 :=
        match foc1 with
        | some f => some f
        | none => (scr.workspaces.getD target default).focused_window
      let foc3 :=
        match foc2 with
        | none => none
        | some c =>
          match ws2.find? (fun q => q.client_win == c.client_win) with
          | none => none
          | some q => if q.hidden then none else some q
      { scr := { scr with windows := ws2, apps := p.2.1, ignore_focus_events := false,
                          last_workspace := target },
        focusSet := some foc3,
        trace := [.saveFocusSnapshot, .setCurrentWorkspace, .applyUnmaps, .applyMaps,
                  .setIgnoreFocusEvents, .flushPendingEvents, .clearIgnoreFocusEvents,
                  .resolveFocus, .setFocus, .setLastWorkspaceFinal,
                  .postChangedNotification] }

/-- wWorkspaceChange (workspace.c lines 525-532): guarded entry into the
transition. -/
def wWorkspaceChange (prefs : WMPrefs) (scr : WScreen) (workspace : Int)
    (focus_win : Option WWindow) (pending : List WWindow → List WWindow) :
    ForceChangeResult :=
  if scr.startup || scr.startup2 || scr.ignore_focus_events then
    { scr := scr, focusSet := none, trace := [] }
  else if workspace ≠ (scr.current_workspace : Int) then
    wWorkspaceForceChange prefs scr workspace focus_win pending
  else
    { scr := scr, focusSet := none, trace := [] }

/-- wWorkspaceDelete (workspace.c lines 450-523).  Note the removal loop
keeps every index i with i != workspace-1. -/
def wWorkspaceDelete (prefs : WMPrefs) (scr : WScreen) (workspace : Int)
    (pending : List WWindow → List WWindow) : WScreen × Bool :=
  if workspace ≤ 0 then (scr, false)
  else if scr.windows.any (fun w => !w.omnipresent && (w.workspace : Int) == workspace) then
    (scr, false)
  else
    let k := workspace.toNat
    let scr :=
      if !prefs.noclip then
        { scr with
            workspaces := scr.workspaces.set k
              { scr.workspaces.getD k default with has_clip := false } }
      else scr
    let scr := { scr with workspaces := scr.workspaces.eraseIdx (k - 1) }
    let scr :=
      if scr.current_workspace ≥ scr.workspaces.length then
        (wWorkspaceChange prefs scr ((scr.workspaces.length : Int) - 1) none pending).scr
      else scr
    let scr :=
      if scr.last_workspace ≥ scr.workspaces.length then
        { scr with last_workspace := 0 }
      else scr
    (scr, true)

/-- The character class of isspace in the C locale. -/
def isSpaceChar (c : Char) : Bool :=
  c == ' ' || c == '\t' || c == '\n' || c == '\x0b' || c == '\x0c' || c == '\r'

/-- Modelled from the spec: wtrimspace (core string utilities, outside
src/) trims surrounding whitespace. -/
def wtrimspace (s : String) : String :=
  String.mk (((s.toList.dropWhile isSpaceChar).reverse.dropWhile isSpaceChar).reverse)

/-- Byte truncation performed by strncpy and snprintf into the fixed
buffer, modelled on the character list (names here are ASCII). -/
def truncateName (s : String) (n : Nat) : String :=
  String.mk (s.toList.take n)

/-- Notifications posted by the rename operation. -/
inductive WMNotification where
  | didChangeWorkspaceName (workspace : Nat)
deriving DecidableEq, Inhabited

/-- The name computation of wWorkspaceRename (workspace.c lines
800-809): trim, fall back to the generated default when empty, truncate
into the fixed buffer. -/
def renameComputedName (workspace : Nat) (name : String) : String :=
  if (wtrimspace name).length == 0 then
    truncateName (defaultWorkspaceName (workspace + 1)) MAX_WORKSPACENAME_WIDTH
  else truncateName (wtrimspace name) MAX_WORKSPACENAME_WIDTH

/-- wWorkspaceRename (workspace.c lines 792-834), restricted to the
screen state and the posted notifications; menu entry updates are
external.  The notification at line 833 is posted unconditionally. -/
def wWorkspaceRename (scr : WScreen) (workspace : Nat) (name : String) :
    WScreen × List WMNotification :=
  if workspace ≥ scr.workspaces.length then (scr, [])
  else
    let buf := renameComputedName workspace name
    let scr :=
      { scr with
          workspaces := scr.workspaces.set workspace
            { scr.workspaces.getD workspace default with name := buf } }
    (scr, [WMNotification.didChangeWorkspaceName workspace])

/-! Preservation facts about the transition helpers. -/

theorem wWorkspaceNew_windows (prefs : WMPrefs) (scr : WScreen) :
    (wWorkspaceNew prefs scr).1.windows = scr.windows := by
  unfold wWorkspaceNew
  split <;> rfl

theorem wWorkspaceMake_windows (prefs : WMPrefs) :
    ∀ (n : Nat) (scr : WScreen), (wWorkspaceMake prefs scr n).windows = scr.windows := by
  intro n
  induction n with
  | zero => intro scr; rfl
  | succ n ih =>
    intro scr
    rw [wWorkspaceMake, ih, wWorkspaceNew_windows]

theorem wWorkspaceSaveFocusedWindow_windows (scr : WScreen) (workspace : Nat)
    (wwin : Option WWindow) :
    (wWorkspaceSaveFocusedWindow scr workspace wwin).windows = scr.windows := rfl

theorem growStep_windows (prefs : WMPrefs) (scr : WScreen) (workspace : Int) :
    (growStep prefs scr workspace).windows = scr.windows := by
  unfold growStep
  split
  · exact wWorkspaceMake_windows prefs _ scr
  · rfl

theorem saveFocusSnapshotStep_windows (scr : WScreen) :
    (saveFocusSnapshotStep scr).windows = scr.windows := by
  unfold saveFocusSnapshotStep
  split
  · split <;> rfl
  · rfl

/-! Concrete states used by the counterexamples and witnesses. -/

/-- A workspace record with no clip and an empty focus slot. -/
def plainWorkspace (s : String) : WWorkspace :=
  { name := s, has_clip := false, focused_window := none }

/-- A base screen with three workspaces, no windows and no apps. -/
def scrDelete : WScreen :=
  { workspaces := [plainWorkspace "Workspace 1", plainWorkspace "Workspace 2",
                   plainWorkspace "Workspace 3"],
    current_workspace := 0, last_workspace := 0, windows := [], apps := [],
    ignore_focus_events := false, startup := false, startup2 := false }

/-- A window that lives on workspace 1 and is not omnipresent. -/
def winOnWs1 : WWindow :=
  { wWindowCreate with client_win := 7, workspace := 1, mapped := true }

/-- The delete screen with one ordinary window on workspace 1. -/
def scrDeleteBusy : WScreen := { scrDelete with windows := [winOnWs1] }

/-- C9: both refusal paths of wWorkspaceDelete leave the screen entirely
unchanged and return failure: index zero (or negative), and a workspace
still used by a non omnipresent window. -/
theorem C9_delete_refusal (prefs : WMPrefs) (scr : WScreen) (workspace : Int)
    (pending : List WWindow → List WWindow)
    (h : workspace ≤ 0 ∨
      ∃ w ∈ scr.windows, w.omnipresent = false ∧ (w.workspace : Int) = workspace) :
    wWorkspaceDelete prefs scr workspace pending = (scr, false) := by
  by_cases h0 : workspace ≤ 0
  · simp [wWorkspaceDelete, h0]
  · rcases h with h | ⟨w, hw, hom, hws⟩
    · exact absurd h h0
    · have hany : (scr.windows.any fun w => !w.omnipresent && (w.workspace : Int) == workspace)
          = true := by
        refine List.any_eq_true.mpr ⟨w, hw, ?_⟩
        simp [hom, hws]
      simp [wWorkspaceDelete, h0, hany]

/-- C9 witness: deleting workspace 0 of the concrete screen fails, and
deleting the busy workspace 1 fails, with the screen unchanged. -/
theorem C9_delete_refusal_witness :
    wWorkspaceDelete default scrDelete 0 id = (scrDelete, false) ∧
    wWorkspaceDelete default scrDeleteBusy 1 id = (scrDeleteBusy, false) :=
  ⟨C9_delete_refusal default scrDelete 0 id (Or.inl (by decide)),
   C9_delete_refusal default scrDeleteBusy 1 id
     (Or.inr ⟨winOnWs1, by decide, by decide, by decide⟩)⟩

/-- C2: evaluating the code at the failing input.  Deleting workspace
index 2 of three workspaces (no windows at all, so the delete succeeds)
removes the workspace that was at index 1 and keeps the one that was at
index 2: the removal loop keeps every index other than workspace-1. -/
theorem C2_delete_removes_wrong_index :
    (wWorkspaceDelete default scrDelete 2 id).1.workspaces.map WWorkspace.name =
      ["Workspace 1", "Workspace 3"] ∧
    (wWorkspaceDelete default scrDelete 2 id).2 = true := by decide

/-- The rename screen: one workspace already carrying its generated
default name. -/
def scrRename : WScreen :=
  { scrDelete with workspaces := [plainWorkspace "Workspace 1"] }

/-- C3 counterexample: renaming a workspace to its existing name leaves
the state unchanged (the computed name equals the stored one) and still
posts the name change notification, so the operation is not the claimed
notification-free no-op. -/
theorem C3_rename_counterexample :
    (wWorkspaceRename scrRename 0 "Workspace 1").1 = scrRename ∧
    (wWorkspaceRename scrRename 0 "Workspace 1").2 =
      [WMNotification.didChangeWorkspaceName 0] := by decide

/-- C3 amended: for a valid index the new name is the trimmed input,
replaced by the generated default when the trimmed result is empty, and
truncated to the fixed maximum, so it is never empty and never exceeds
the maximum; but the name is always stored and the name change
notification is always posted, even when the computed name equals the
existing one. -/
theorem truncateName_length (s : String) (n : Nat) :
    (truncateName s n).length = min n s.length := by
  show (s.toList.take n).length = _
  rw [List.length_take]
  rfl

theorem truncateName_ne_empty (s : String) (n : Nat) (hs : 0 < s.length) (hn : 0 < n) :
    truncateName s n ≠ "" := by
  intro hcon
  have h2 := congrArg String.length hcon
  rw [truncateName_length, show ("" : String).length = 0 from rfl] at h2
  omega

theorem defaultWorkspaceName_length_pos (i : Nat) : 0 < (defaultWorkspaceName i).length := by
  unfold defaultWorkspaceName
  rw [String.length_append]
  have : ("Workspace " : String).length = 10 := rfl
  omega

/-- C3 amended, part one: for a valid index the stored name becomes the
computed name (trimmed input, or generated default when the trimmed
input is empty, truncated to the fixed maximum) and the name change
notification is posted unconditionally, even when the computed name
equals the existing one; the computed name respects the maximum length
and is never empty. -/
theorem C3_rename_computed_name (scr : WScreen) (workspace : Nat) (name : String)
    (h : workspace < scr.workspaces.length) :
    wWorkspaceRename scr workspace name =
      ({ scr with
           workspaces := scr.workspaces.set workspace
             { scr.workspaces.getD workspace default with
                 name := renameComputedName workspace name } },
       [WMNotification.didChangeWorkspaceName workspace]) ∧
    (renameComputedName workspace name).length ≤ MAX_WORKSPACENAME_WIDTH ∧
    renameComputedName workspace name ≠ "" := by
  refine ⟨?_, ?_, ?_⟩
  · rw [wWorkspaceRename, if_neg (by omega)]
  · unfold renameComputedName
    split <;> · rw [truncateName_length]; omega
  · unfold renameComputedName
    split
    · exact truncateName_ne_empty _ _ (defaultWorkspaceName_length_pos _) (by decide)
    · rename_i hz
      refine truncateName_ne_empty _ _ ?_ (by decide)
      simp only [beq_iff_eq] at hz
      omega

/-- C3 witness: the amended theorem applied to the all-whitespace rename
of the concrete screen; the stored name becomes the generated default
"Workspace 1" and the notification is posted. -/
theorem C3_rename_computed_name_witness :
    0 < scrRename.workspaces.length ∧
    (wWorkspaceRename scrRename 0 "   " =
      ({ scrRename with
           workspaces := scrRename.workspaces.set 0
             { scrRename.workspaces.getD 0 default with
                 name := renameComputedName 0 "   " } },
       [WMNotification.didChangeWorkspaceName 0]) ∧
     (renameComputedName 0 "   ").length ≤ MAX_WORKSPACENAME_WIDTH ∧
     renameComputedName 0 "   " ≠ "") :=
  ⟨by decide, C3_rename_computed_name scrRename 0 "   " (by decide)⟩

/-- C10: every completed transition writes the target into both
current_workspace and last_workspace; the previous workspace recorded at
line 613 is overwritten by line 785, so the transition never ends with
last_workspace holding the previously current workspace. -/
theorem C10_last_workspace_overwritten (prefs : WMPrefs) (scr : WScreen) (workspace : Int)
    (focus_win : Option WWindow) (pending : List WWindow → List WWindow)
    (h1 : 0 ≤ workspace) (h2 : workspace < (MAX_WORKSPACES : Int))
    (h3 : workspace ≠ (scr.current_workspace : Int)) :
    (wWorkspaceForceChange prefs scr workspace focus_win pending).scr.last_workspace =
      workspace.toNat ∧
    (wWorkspaceForceChange prefs scr workspace focus_win pending).scr.current_workspace =
      workspace.toNat := by
  rw [wWorkspaceForceChange, if_neg (by push_neg; exact ⟨by omega, by omega, h3⟩)]
  dsimp only
  refine ⟨?_, ?_⟩ <;> (repeat' split) <;> rfl

/-- A one window screen with two workspaces, used by the transition
witnesses and counterexamples. -/
def scrChange : WScreen :=
  { workspaces := [plainWorkspace "Workspace 1", plainWorkspace "Workspace 2"],
    current_workspace := 0, last_workspace := 0,
    windows := [{ wWindowCreate with client_win := 3, workspace := 0, mapped := true }],
    apps := [], ignore_focus_events := false, startup := false, startup2 := false }

/-- C10 witness: the concrete transition from workspace 0 to 1 ends with
last_workspace = current_workspace = 1. -/
theorem C10_last_workspace_overwritten_witness :
    0 ≤ (1 : Int) ∧ (1 : Int) < (MAX_WORKSPACES : Int) ∧
    (1 : Int) ≠ (scrChange.current_workspace : Int) ∧
    ((wWorkspaceForceChange default scrChange 1 none id).scr.last_workspace = (1 : Int).toNat ∧
     (wWorkspaceForceChange default scrChange 1 none id).scr.current_workspace = (1 : Int).toNat) :=
  ⟨by decide, by decide, by decide,
   C10_last_workspace_overwritten default scrChange 1 none id (by decide) (by decide) (by decide)⟩

/-- C4 amended: a change request that arrives while the
ignore_focus_events guard flag is set (as it is for the duration of the
pending event flush) is a complete no-op; and in every transition over a
non empty registry the flag is set immediately before the flush and
cleared immediately after it, with the rest of the transition (focus
resolution, final last_workspace update, change notification) still to
run after the clear, so the flag is not cleared at the end of the
transition. -/
theorem C4_flush_guard :
    (∀ (prefs : WMPrefs) (scr : WScreen) (workspace : Int) (focus_win : Option WWindow)
        (pending : List WWindow → List WWindow),
       scr.ignore_focus_events = true →
       wWorkspaceChange prefs scr workspace focus_win pending =
         { scr := scr, focusSet := none, trace := [] }) ∧
    (∀ (prefs : WMPrefs) (scr : WScreen) (workspace : Int) (focus_win : Option WWindow)
        (pending : List WWindow → List WWindow),
       ¬(workspace ≥ (MAX_WORKSPACES : Int) ∨ workspace < 0 ∨
          workspace = (scr.current_workspace : Int)) →
       scr.windows ≠ [] →
       (wWorkspaceForceChange prefs scr workspace focus_win pending).trace =
         [.saveFocusSnapshot, .setCurrentWorkspace, .applyUnmaps, .applyMaps,
          .setIgnoreFocusEvents, .flushPendingEvents, .clearIgnoreFocusEvents] ++
         [.resolveFocus, .setFocus, .setLastWorkspaceFinal, .postChangedNotification]) := by
  constructor
  · intro prefs scr workspace focus_win pending hflag
    rw [wWorkspaceChange, if_pos (by simp [hflag])]
  · intro prefs scr workspace focus_win pending hg hne
    obtain ⟨w, rest, hwe⟩ := List.exists_cons_of_ne_nil hne
    rw [wWorkspaceForceChange, if_neg hg]
    dsimp only
    rw [saveFocusSnapshotStep_windows, growStep_windows, hwe]
    rfl

/-- C4 witness: the two parts of the amended theorem at concrete inputs:
a request against a screen whose guard flag is set is a no-op, and the
concrete transition trace sets and clears the flag around the flush with
four further actions after the clear. -/
theorem C4_flush_guard_witness :
    (wWorkspaceChange default { scrChange with ignore_focus_events := true } 1 none id =
      { scr := { scrChange with ignore_focus_events := true }, focusSet := none, trace := [] }) ∧
    ((wWorkspaceForceChange default scrChange 1 none id).trace =
      [.saveFocusSnapshot, .setCurrentWorkspace, .applyUnmaps, .applyMaps,
       .setIgnoreFocusEvents, .flushPendingEvents, .clearIgnoreFocusEvents] ++
      [.resolveFocus, .setFocus, .setLastWorkspaceFinal, .postChangedNotification]) :=
  ⟨C4_flush_guard.1 default { scrChange with ignore_focus_events := true } 1 none id rfl,
   C4_flush_guard.2 default scrChange 1 none id (by decide) (by decide)⟩

/-- C4 counterexample: in the concrete transition the clear of the guard
flag is the seventh of eleven recorded actions, so the flag is cleared
strictly before the transition ends (the final actions, ending with the
change notification, run unguarded), contradicting the claim that the
flag is cleared only at the end of the transition. -/
theorem C4_flag_cleared_midway :
    (wWorkspaceForceChange default scrChange 1 none id).trace.get? 6 =
      some WMAction.clearIgnoreFocusEvents ∧
    (wWorkspaceForceChange default scrChange 1 none id).trace.length = 11 ∧
    (wWorkspaceForceChange default scrChange 1 none id).trace.getLast? =
      some WMAction.postChangedNotification := by decide

/-! Switch panel construction (claim C1). -/

theorem indexOfWindow_bounds (x : WWindow) :
    ∀ l : List WWindow, (∃ w ∈ l, w.client_win = x.client_win) →
      0 ≤ indexOfWindow l x ∧ indexOfWindow l x < (l.length : Int) := by
  intro l
  induction l with
  | nil => rintro ⟨w, hw, _⟩; cases hw
  | cons w rest ih =>
    rintro ⟨v, hv, hvc⟩
    rw [indexOfWindow]
    by_cases heq : w.client_win == x.client_win
    · rw [if_pos heq]
      constructor
      · omega
      · simp only [List.length_cons]
        push_cast
        positivity
    · rw [if_neg heq]
      have hvr : v ∈ rest := by
        rcases List.mem_cons.mp hv with h | h
        · exact absurd (beq_iff_eq.mpr (h ▸ hvc)) heq
        · exact h
      have := ih ⟨v, hvr, hvc⟩
      rw [if_neg (by omega)]
      constructor
      · omega
      · simp only [List.length_cons]
        push_cast
        omega

/-- C1 amended: when construction succeeds, the current index is the
index of the supplied hint window when the panel draws (tile image
configured), with -1 (kCFNotFound) stored when the hint is not among the
candidates; when the panel does not draw the current index is left at
its zero-filled value 0 regardless of the hint.  The claimed invariant
0 <= current < len therefore holds whenever the hint is present in the
candidate list (or the panel does not draw), but not in general. -/
theorem C1_panel_current_init (prefs : WMPrefs) (scr : WScreen) (pointerHead headWidth : Nat)
    (curwin : WWindow) (class_only : Bool) (panel : WSwitchPanel)
    (h : wInitSwitchPanel prefs scr pointerHead headWidth curwin class_only = some panel) :
    panel.current = (if prefs.swtileImage then indexOfWindow panel.windows curwin else 0) ∧
    0 < panel.windows.length ∧
    ((∃ w ∈ panel.windows, w.client_win = curwin.client_win) →
      0 ≤ panel.current ∧ panel.current < (panel.windows.length : Int)) := by
  rw [wInitSwitchPanel] at h
  dsimp only at h
  by_cases h0 : (makeWindowListArray prefs scr pointerHead prefs.swtileImage class_only).length == 0
  · rw [if_pos h0] at h
    cases h
  · rw [if_neg h0] at h
    have hlen : 0 < (makeWindowListArray prefs scr pointerHead prefs.swtileImage class_only).length := by
      simp only [beq_iff_eq] at h0
      omega
    cases hsw : prefs.swtileImage
    · rw [hsw] at h hlen
      simp only [Bool.not_false, if_pos] at h
      injection h with h
      subst h
      refine ⟨by rfl, ?_, fun _ => ⟨le_refl 0, ?_⟩⟩
      · exact hlen
      · dsimp only
        exact_mod_cast hlen
    · rw [hsw] at h hlen
      simp only [Bool.not_true, Bool.false_eq_true, if_false] at h
      injection h with h
      subst h
      exact ⟨by rfl, hlen, fun hex => indexOfWindow_bounds curwin _ hex⟩

/-- A preference set with the switch panel tile image configured. -/
def prefsTile : WMPrefs :=
  { cycle_active_head_only := false, cycle_ignore_minimized := false,
    sticky_icons := false, swtileImage := true, noclip := false }

/-- An eligible candidate window on the current workspace. -/
def winCand : WWindow :=
  { wWindowCreate with client_win := 1, wm_class := some "A", wm_instance := "a", mapped := true }

/-- A screen whose focus chain is the single eligible candidate. -/
def scrPanel : WScreen :=
  { workspaces := [plainWorkspace "Workspace 1"], current_workspace := 0, last_workspace := 0,
    windows := [winCand], apps := [], ignore_focus_events := false,
    startup := false, startup2 := false }

/-- A window that is not among the candidates. -/
def winOther : WWindow := { winCand with client_win := 2 }

/-- The panel produced by the witness construction. -/
def panelCand : WSwitchPanel :=
  { windows := [winCand], current := 0, firstVisible := 0, visibleCount := 1 }

/-- C1 counterexample: constructing the panel with a hint window that is
not in the candidate list yields current = -1, not the claimed 0, so
0 <= current < len fails immediately after construction. -/
theorem C1_current_not_zero_counterexample :
    (wInitSwitchPanel prefsTile scrPanel 0 640 winOther true).map WSwitchPanel.current =
      some (-1) := by decide

/-- C1 witness: the amended theorem at a concrete construction whose
hint is the sole candidate; current is its index 0 and the invariant
holds. -/
theorem C1_panel_current_init_witness :
    wInitSwitchPanel prefsTile scrPanel 0 640 winCand true = some panelCand ∧
    (panelCand.current =
       (if prefsTile.swtileImage then indexOfWindow panelCand.windows winCand else 0) ∧
     0 < panelCand.windows.length ∧
     ((∃ w ∈ panelCand.windows, w.client_win = winCand.client_win) →
       0 ≤ panelCand.current ∧ panelCand.current < (panelCand.windows.length : Int))) :=
  ⟨by decide, C1_panel_current_init prefsTile scrPanel 0 640 winCand true panelCand (by decide)⟩

/-! Arithmetic of the cyclic advance step (claims C7, C8). -/

theorem stepIdx_false_eq (n : Nat) (c : Int) (hn : 0 < n) (hc : 0 ≤ c) :
    stepIdx n false c = (c + 1) % (n : Int) := by
  unfold stepIdx
  rw [if_neg (by simp), Int.tmod_eq_emod (by omega) (by omega),
    show (n : Int) + (c + 1) = (c + 1) + (n : Int) * 1 by ring, Int.add_mul_emod_self_left]

theorem stepIdx_true_eq (n : Nat) (c : Int) (hn : 0 < n) (hc : 0 ≤ c) :
    stepIdx n true c = (c - 1) % (n : Int) := by
  unfold stepIdx
  rw [if_pos rfl, Int.tmod_eq_emod (by omega) (by omega),
    show (n : Int) + (c - 1) = (c - 1) + (n : Int) * 1 by ring, Int.add_mul_emod_self_left]

theorem stepIdx_eq (n : Nat) (back : Bool) (c : Int) (hn : 0 < n) (hc : 0 ≤ c) :
    stepIdx n back c = (c + (if back then (-1 : Int) else 1)) % (n : Int) := by
  cases back
  · exact stepIdx_false_eq n c hn hc
  · exact stepIdx_true_eq n c hn hc

theorem stepIdx_range (n : Nat) (back : Bool) (c : Int) (hn : 0 < n) (hc : 0 ≤ c) :
    0 ≤ stepIdx n back c ∧ stepIdx n back c < (n : Int) := by
  rw [stepIdx_eq n back c hn hc]
  exact ⟨Int.emod_nonneg _ (by omega), Int.emod_lt_of_pos _ (by exact_mod_cast hn)⟩

theorem stepIdx_iterate (n : Nat) (back : Bool) (c : Int) (hn : 0 < n) (h0 : 0 ≤ c)
    (h1 : c < (n : Int)) :
    ∀ k : Nat, (stepIdx n back)^[k] c =
      (c + (k : Int) * (if back then (-1 : Int) else 1)) % (n : Int) := by
  intro k
  induction k with
  | zero => simp [Int.emod_eq_of_lt h0 h1]
  | succ k ih =>
    have hprev0 : 0 ≤ (c + (k : Int) * (if back then (-1 : Int) else 1)) % (n : Int) :=
      Int.emod_nonneg _ (by omega)
    rw [Function.iterate_succ_apply', ih, stepIdx_eq n back _ hn hprev0,
      Int.add_emod ((c + (k : Int) * _) % (n : Int)) _ (n : Int),
      Int.emod_emod_of_dvd _ dvd_rfl, ← Int.add_emod]
    congr 1
    push_cast
    ring

theorem stepIdx_iterate_len (n : Nat) (back : Bool) (c : Int) (hn : 0 < n) (h0 : 0 ≤ c)
    (h1 : c < (n : Int)) : (stepIdx n back)^[n] c = c := by
  rw [stepIdx_iterate n back c hn h0 h1 n]
  cases back
  · rw [if_neg (by simp), Int.add_mul_emod_self_left, Int.emod_eq_of_lt h0 h1]
  · rw [if_pos rfl, Int.add_mul_emod_self_left, Int.emod_eq_of_lt h0 h1]

theorem stepIdx_reach (n : Nat) (back : Bool) (cur orig : Int) (hn : 0 < n)
    (hc0 : 0 ≤ cur) (hc1 : cur < (n : Int)) (ho0 : 0 ≤ orig) (ho1 : orig < (n : Int)) :
    ∃ k : Nat, 1 ≤ k ∧ k ≤ n ∧ (stepIdx n back)^[k] cur = orig := by
  have hmulz : ∀ t : Int, (n : Int) * t = orig - cur → -(n : Int) < orig - cur →
      orig - cur < (n : Int) → orig = cur := by
    intro t ht hb1 hb2
    rcases lt_trichotomy t 0 with h | h | h
    · have ht1 : t ≤ -1 := by omega
      nlinarith
    · rw [h, mul_zero] at ht
      omega
    · have ht1 : 1 ≤ t := by omega
      nlinarith
  cases back
  · set m : Int := (orig - cur) % (n : Int) with hm
    have hm0 : 0 ≤ m := Int.emod_nonneg _ (by omega)
    have hm1 : m < (n : Int) := Int.emod_lt_of_pos _ (by exact_mod_cast hn)
    by_cases hz : m = 0
    · obtain ⟨t, ht⟩ := Int.dvd_of_emod_eq_zero (hm ▸ hz)
      have heq : orig = cur := hmulz t ht.symm (by omega) (by omega)
      exact ⟨n, by omega, le_refl n, by
        rw [stepIdx_iterate_len n false cur hn hc0 hc1]; omega⟩
    · refine ⟨m.toNat, by omega, by omega, ?_⟩
      rw [stepIdx_iterate n false cur hn hc0 hc1, if_neg (by simp), mul_one,
        Int.toNat_of_nonneg hm0, hm,
        Int.add_emod cur ((orig - cur) % (n : Int)) (n : Int),
        Int.emod_emod_of_dvd _ dvd_rfl, ← Int.add_emod,
        show cur + (orig - cur) = orig by ring, Int.emod_eq_of_lt ho0 ho1]
  · set m : Int := (cur - orig) % (n : Int) with hm
    have hm0 : 0 ≤ m := Int.emod_nonneg _ (by omega)
    have hm1 : m < (n : Int) := Int.emod_lt_of_pos _ (by exact_mod_cast hn)
    by_cases hz : m = 0
    · obtain ⟨t, ht⟩ := Int.dvd_of_emod_eq_zero (hm ▸ hz)
      have heq : orig = cur := by
        have ht2 : (n : Int) * (-t) = orig - cur := by
          rw [mul_neg]
          omega
        exact hmulz (-t) ht2 (by omega) (by omega)
      exact ⟨n, by omega, le_refl n, by
        rw [stepIdx_iterate_len n true cur hn hc0 hc1]; omega⟩
    · refine ⟨m.toNat, by omega, by omega, ?_⟩
      rw [stepIdx_iterate n true cur hn hc0 hc1, if_pos rfl,
        Int.toNat_of_nonneg hm0, hm,
        show cur + (cur - orig) % (n : Int) * (-1 : Int)
          = cur - (cur - orig) % (n : Int) by ring,
        Int.sub_emod cur ((cur - orig) % (n : Int)) (n : Int),
        Int.emod_emod_of_dvd _ dvd_rfl, ← Int.sub_emod,
        show cur - (cur - orig) = orig by ring, Int.emod_eq_of_lt ho0 ho1]

theorem innerLoop_range (ws : List WWindow) (curwin : WWindow) (orig : Int)
    (back cls : Bool) (hlen : 0 < ws.length) :
    ∀ (fuel : Nat) (cur : Int), 0 ≤ cur → cur < (ws.length : Int) →
      0 ≤ innerLoop ws curwin orig back cls fuel cur ∧
      innerLoop ws curwin orig back cls fuel cur < (ws.length : Int) := by
  intro fuel
  induction fuel with
  | zero => intro cur hc0 hc1; exact ⟨hc0, hc1⟩
  | succ fuel ih =>
    intro cur hc0 hc1
    have hstep := stepIdx_range ws.length back cur hlen hc0
    rw [innerLoop]
    split
    · exact hstep
    · split
      · exact hstep
      · split
        · exact hstep
        · exact ih _ hstep.1 hstep.2

theorem outerLoop_range (prefs : WMPrefs) (cws ph : Nat) (ws : List WWindow)
    (curwin : WWindow) (orig : Int) (back cls ign : Bool) (hlen : 0 < ws.length) :
    ∀ (fuel : Nat) (cur : Int), 0 ≤ cur → cur < (ws.length : Int) →
      0 ≤ outerLoop prefs cws ph ws curwin orig back cls ign fuel cur ∧
      outerLoop prefs cws ph ws curwin orig back cls ign fuel cur < (ws.length : Int) := by
  intro fuel
  induction fuel with
  | zero => intro cur hc0 hc1; exact ⟨hc0, hc1⟩
  | succ fuel ih =>
    intro cur hc0 hc1
    have hinner := innerLoop_range ws curwin orig back cls hlen ws.length cur hc0 hc1
    rw [outerLoop]
    split
    · exact ih _ hinner.1 hinner.2
    · exact hinner

/-- The inner do-while breaks only at the original index or on a window
of the same class as the window at the original index, provided the
original index is reachable within the fuel. -/
theorem innerLoop_spec (ws : List WWindow) (curwin : WWindow) (orig : Int) (back : Bool) :
    ∀ (fuel : Nat) (cur : Int), 0 ≤ cur → cur < (ws.length : Int) →
      (∃ k : Nat, 1 ≤ k ∧ k ≤ fuel ∧ (stepIdx ws.length back)^[k] cur = orig) →
      innerLoop ws curwin orig back true fuel cur = orig ∨
      sameWindowClass (ws.getD (innerLoop ws curwin orig back true fuel cur).toNat default)
        curwin = true := by
  intro fuel
  induction fuel with
  | zero =>
    intro cur _ _ hex
    obtain ⟨k, hk1, hk2, _⟩ := hex
    omega
  | succ fuel ih =>
    intro cur hc0 hc1 hex
    obtain ⟨k, hk1, hk2, hk3⟩ := hex
    have hlen : 0 < ws.length := by omega
    have hstep := stepIdx_range ws.length back cur hlen hc0
    rw [innerLoop]
    rw [if_neg (by simp)]
    by_cases hco : stepIdx ws.length back cur = orig
    · rw [if_pos (beq_iff_eq.mpr hco)]
      exact Or.inl hco
    · rw [if_neg (by simp [hco])]
      by_cases hsc : sameWindowClass
          (ws.getD (stepIdx ws.length back cur).toNat default) curwin = true
      · rw [if_pos hsc]
        exact Or.inr hsc
      · rw [if_neg hsc]
        have hkne1 : k ≠ 1 := by
          intro h1
          apply hco
          rw [h1, Function.iterate_one] at hk3
          exact hk3
        have hk3' : (stepIdx ws.length back)^[k - 1] (stepIdx ws.length back cur) = orig := by
          rw [← Function.iterate_succ_apply]
          have hks : (k - 1).succ = k := by omega
          rw [hks]
          exact hk3
        exact ih _ hstep.1 hstep.2 ⟨k - 1, by omega, by omega, hk3'⟩

/-- The class invariant is preserved by the outer loop: with class_only
set, the advance always ends at the original index or at a window of the
same class as the pre-advance window. -/
theorem outerLoop_spec (prefs : WMPrefs) (cws ph : Nat) (ws : List WWindow)
    (curwin : WWindow) (orig : Int) (back ign : Bool)
    (ho0 : 0 ≤ orig) (ho1 : orig < (ws.length : Int)) :
    ∀ (fuel : Nat) (cur : Int), 0 ≤ cur → cur < (ws.length : Int) →
      (cur = orig ∨ sameWindowClass (ws.getD cur.toNat default) curwin = true) →
      outerLoop prefs cws ph ws curwin orig back true ign fuel cur = orig ∨
      sameWindowClass
        (ws.getD (outerLoop prefs cws ph ws curwin orig back true ign fuel cur).toNat default)
        curwin = true := by
  intro fuel
  induction fuel with
  | zero =>
    intro cur _ _ hd
    exact hd
  | succ fuel ih =>
    intro cur hc0 hc1 hd
    have hlen : 0 < ws.length := by omega
    have hreach := stepIdx_reach ws.length back cur orig hlen hc0 hc1 ho0 ho1
    have hinner := innerLoop_spec ws curwin orig back ws.length cur hc0 hc1 hreach
    have hrange := innerLoop_range ws curwin orig back true hlen ws.length cur hc0 hc1
    rw [outerLoop]
    split
    · exact ih _ hrange.1 hrange.2 hinner
    · exact hinner

theorem scrollIcons_current (panel : WSwitchPanel) (delta : Int) :
    (scrollIcons panel delta).current = panel.current := by
  unfold scrollIcons
  dsimp only
  repeat' split
  all_goals rfl

theorem scrollIcons_windows (panel : WSwitchPanel) (delta : Int) :
    (scrollIcons panel delta).windows = panel.windows := by
  unfold scrollIcons
  dsimp only
  repeat' split
  all_goals rfl

/-- The state effect of wSwitchPanelSelectNext when the guard at line
659 passes: the new current index is the outer loop result, the
candidate list is untouched, and the returned window is the candidate at
the new index. -/
theorem selectNext_state (prefs : WMPrefs) (cws ph : Nat) (panel : WSwitchPanel)
    (back ign cls : Bool) (h0 : 0 ≤ panel.current) (hne : panel.windows.length ≠ 0) :
    (wSwitchPanelSelectNext prefs cws ph panel back ign cls).1.current =
      outerLoop prefs cws ph panel.windows (panel.windows.getD panel.current.toNat default)
        panel.current back cls (effIgnoreMinimized prefs cws ph panel.windows panel.current ign)
        panel.windows.length panel.current ∧
    (wSwitchPanelSelectNext prefs cws ph panel back ign cls).1.windows = panel.windows ∧
    (wSwitchPanelSelectNext prefs cws ph panel back ign cls).2 =
      some (panel.windows.getD
        (outerLoop prefs cws ph panel.windows (panel.windows.getD panel.current.toNat default)
          panel.current back cls (effIgnoreMinimized prefs cws ph panel.windows panel.current ign)
          panel.windows.length panel.current).toNat default) := by
  have hguard : ¬((panel.windows.length == 0 || decide (panel.current < 0)) = true) := by
    simp only [Bool.or_eq_true, beq_iff_eq, decide_eq_true_eq]
    push_neg
    exact ⟨hne, by omega⟩
  rw [wSwitchPanelSelectNext, if_neg hguard]
  dsimp only
  refine ⟨?_, ?_, rfl⟩
  · split
    · rw [scrollIcons_current]
    · split
      · rw [scrollIcons_current]
      · rfl
  · split
    · rw [scrollIcons_windows]
    · split
      · rw [scrollIcons_windows]
      · rfl

/-- C8: with class_only set, one advance never lands on a candidate of a
class different from the class of the pre-advance (seed) candidate,
except when it comes back to the seed index itself. -/
theorem C8_classOnly_stays_in_class (prefs : WMPrefs) (cws ph : Nat)
    (panel : WSwitchPanel) (back ign : Bool)
    (h0 : 0 ≤ panel.current) (h1 : panel.current < (panel.windows.length : Int))
    (_hcl : ∃ a ∈ panel.windows, ∃ b ∈ panel.windows, sameWindowClass a b = false) :
    (wSwitchPanelSelectNext prefs cws ph panel back ign true).1.current = panel.current ∨
    sameWindowClass
      (panel.windows.getD
        ((wSwitchPanelSelectNext prefs cws ph panel back ign true).1.current).toNat default)
      (panel.windows.getD panel.current.toNat default) = true := by
  have hne : panel.windows.length ≠ 0 := by omega
  obtain ⟨hcur, _, _⟩ := selectNext_state prefs cws ph panel back ign true h0 hne
  rw [hcur]
  exact outerLoop_spec prefs cws ph panel.windows
    (panel.windows.getD panel.current.toNat default) panel.current back
    (effIgnoreMinimized prefs cws ph panel.windows panel.current ign)
    h0 h1 panel.windows.length panel.current h0 h1 (Or.inl rfl)

/-- A candidate of class A. -/
def winClassA : WWindow :=
  { wWindowCreate with client_win := 11, wm_class := some "A", wm_instance := "a", mapped := true }

/-- A candidate of class B. -/
def winClassB : WWindow :=
  { winClassA with client_win := 12, wm_class := some "B", wm_instance := "b" }

/-- A two-candidate session holding two distinct classes. -/
def panelTwoClasses : WSwitchPanel :=
  { windows := [winClassA, winClassB], current := 0, firstVisible := 0, visibleCount := 2 }

/-- C8 witness: the class invariant at the concrete two-class session;
the advance wraps back to the seed because no other candidate matches. -/
theorem C8_classOnly_stays_in_class_witness :
    0 ≤ panelTwoClasses.current ∧
    panelTwoClasses.current < (panelTwoClasses.windows.length : Int) ∧
    ((wSwitchPanelSelectNext default 0 0 panelTwoClasses false false true).1.current =
       panelTwoClasses.current ∨
     sameWindowClass
       (panelTwoClasses.windows.getD
         ((wSwitchPanelSelectNext default 0 0 panelTwoClasses false false true).1.current).toNat
         default)
       (panelTwoClasses.windows.getD panelTwoClasses.current.toNat default) = true) :=
  ⟨by decide, by decide,
   C8_classOnly_stays_in_class default 0 0 panelTwoClasses false false (by decide) (by decide)
     ⟨winClassA, by decide, winClassB, by decide, by decide⟩⟩

/-! Plain advance (no class filter, no minimized skipping): each call
moves current by one step modulo the candidate count (claim C7). -/

theorem effIgnoreMinimized_false (prefs : WMPrefs) (cws ph : Nat) (ws : List WWindow)
    (orig : Int) : effIgnoreMinimized prefs cws ph ws orig false = false := by
  unfold effIgnoreMinimized
  cases prefs.cycle_ignore_minimized <;> simp

theorem innerLoop_plain (ws : List WWindow) (curwin : WWindow) (orig : Int) (back : Bool)
    (fuel : Nat) (cur : Int) :
    innerLoop ws curwin orig back false (fuel + 1) cur = stepIdx ws.length back cur := by
  rw [innerLoop]
  simp

theorem outerLoop_plain (prefs : WMPrefs) (cws ph : Nat) (ws : List WWindow)
    (curwin : WWindow) (orig : Int) (back : Bool) (hlen : ws.length ≠ 0)
    (fuel : Nat) (cur : Int) :
    outerLoop prefs cws ph ws curwin orig back false false (fuel + 1) cur =
      stepIdx ws.length back cur := by
  obtain ⟨m, hm⟩ := Nat.exists_eq_succ_of_ne_zero hlen
  rw [outerLoop, hm, innerLoop_plain]
  simp [hm]

/-- One plain advance steps current cyclically and keeps the candidate
list. -/
theorem selectNext_noFilter (prefs : WMPrefs) (cws ph : Nat) (panel : WSwitchPanel)
    (back : Bool) (h0 : 0 ≤ panel.current) (hne : panel.windows.length ≠ 0) :
    (wSwitchPanelSelectNext prefs cws ph panel back false false).1.current =
      stepIdx panel.windows.length back panel.current ∧
    (wSwitchPanelSelectNext prefs cws ph panel back false false).1.windows = panel.windows := by
  obtain ⟨hcur, hwin, _⟩ := selectNext_state prefs cws ph panel back false false h0 hne
  refine ⟨?_, hwin⟩
  rw [hcur, effIgnoreMinimized_false]
  obtain ⟨m, hm⟩ := Nat.exists_eq_succ_of_ne_zero hne
  rw [hm, outerLoop_plain prefs cws ph panel.windows _ _ back (by omega) m panel.current, hm]

theorem selectNext_iterate (prefs : WMPrefs) (cws ph : Nat) (back : Bool) (n : Nat) :
    ∀ (k : Nat) (p : WSwitchPanel), p.windows.length = n → 0 ≤ p.current →
      p.current < (n : Int) →
      ((fun q => (wSwitchPanelSelectNext prefs cws ph q back false false).1)^[k] p).windows.length
        = n ∧
      ((fun q => (wSwitchPanelSelectNext prefs cws ph q back false false).1)^[k] p).current
        = (stepIdx n back)^[k] p.current := by
  intro k
  induction k with
  | zero => intro p hw _ _; exact ⟨hw, rfl⟩
  | succ k ih =>
    intro p hw h0 h1
    have hlen : 0 < n := by omega
    have hne : p.windows.length ≠ 0 := by omega
    have hstep := selectNext_noFilter prefs cws ph p back h0 hne
    have hrange := stepIdx_range p.windows.length back p.current (by omega) h0
    rw [Function.iterate_succ_apply, Function.iterate_succ_apply]
    have hw2 : ((wSwitchPanelSelectNext prefs cws ph p back false false).1).windows.length = n := by
      rw [hstep.2, hw]
    have h02 : 0 ≤ ((wSwitchPanelSelectNext prefs cws ph p back false false).1).current := by
      rw [hstep.1]
      exact hrange.1
    have h12 : ((wSwitchPanelSelectNext prefs cws ph p back false false).1).current < (n : Int) := by
      rw [hstep.1]
      have := hrange.2
      omega
    have := ih _ hw2 h02 h12
    refine ⟨this.1, ?_⟩
    rw [this.2, hstep.1, hw, ← Function.iterate_succ_apply]

/-- C7 amended: with classOnly false and no minimized skipping, applying
selectNext len(candidates) times with the same direction returns the
current index to its original value; and a single-candidate session
always returns that candidate with the current index unchanged, for
every combination of the filter arguments. -/
theorem C7_cycle_closure :
    (∀ (prefs : WMPrefs) (cws ph : Nat) (back : Bool) (p : WSwitchPanel),
       0 ≤ p.current → p.current < (p.windows.length : Int) →
       ((fun q => (wSwitchPanelSelectNext prefs cws ph q back false false).1)^[p.windows.length]
          p).current = p.current) ∧
    (∀ (prefs : WMPrefs) (cws ph : Nat) (back ign cls : Bool) (p : WSwitchPanel) (w0 : WWindow),
       p.windows = [w0] → p.current = 0 →
       (wSwitchPanelSelectNext prefs cws ph p back ign cls).2 = some w0 ∧
       (wSwitchPanelSelectNext prefs cws ph p back ign cls).1.current = 0) := by
  constructor
  · intro prefs cws ph back p h0 h1
    have h := (selectNext_iterate prefs cws ph back p.windows.length p.windows.length p
      rfl h0 h1).2
    rw [h, stepIdx_iterate_len _ back _ (by omega) h0 h1]
  · intro prefs cws ph back ign cls p w0 hw hc
    have h0 : 0 ≤ p.current := by omega
    have hne : p.windows.length ≠ 0 := by rw [hw]; simp
    obtain ⟨hcur, _, hret⟩ := selectNext_state prefs cws ph p back ign cls h0 hne
    have hout : outerLoop prefs cws ph p.windows (p.windows.getD p.current.toNat default)
        p.current back cls (effIgnoreMinimized prefs cws ph p.windows p.current ign)
        p.windows.length p.current = 0 := by
      have hlen1 : p.windows.length = 1 := by rw [hw]; rfl
      have hr := outerLoop_range prefs cws ph p.windows
        (p.windows.getD p.current.toNat default) p.current back cls
        (effIgnoreMinimized prefs cws ph p.windows p.current ign) (by omega)
        p.windows.length p.current h0 (by rw [hc, hlen1]; norm_num)
      obtain ⟨hr1, hr2⟩ := hr
      omega
    constructor
    · rw [hret, hout, hw]
      rfl
    · rw [hcur, hout]

/-- A second candidate of class A with a distinct instance. -/
def winClassA2 : WWindow := { winClassA with client_win := 13, wm_instance := "a2" }

/-- A three-candidate session with classes A, A, B. -/
def panelThreeMixed : WSwitchPanel :=
  { windows := [winClassA, winClassA2, winClassB], current := 0, firstVisible := 0,
    visibleCount := 3 }

/-- A single-candidate session. -/
def panelSingle : WSwitchPanel :=
  { windows := [winClassA], current := 0, firstVisible := 0, visibleCount := 1 }

/-- C7 counterexample: for the claim as stated (over every advance mode),
a classOnly advance over the mixed-class session [A, A, B] applied
len = 3 times does not return to the original index: the advance is the
cyclic successor inside the class-A subset of size 2, so three steps land
on index 1. -/
theorem C7_classOnly_not_closed :
    ((fun q => (wSwitchPanelSelectNext default 0 0 q false false true).1)^[panelThreeMixed.windows.length]
        panelThreeMixed).current ≠ panelThreeMixed.current := by decide

/-- C7 witness: plain cyclic closure on the concrete two-candidate
session, and the degenerate single-candidate case with all filters on. -/
theorem C7_cycle_closure_witness :
    (0 ≤ panelTwoClasses.current ∧
     panelTwoClasses.current < (panelTwoClasses.windows.length : Int) ∧
     ((fun q => (wSwitchPanelSelectNext default 0 0 q false false false).1)^[panelTwoClasses.windows.length]
        panelTwoClasses).current = panelTwoClasses.current) ∧
    (panelSingle.windows = [winClassA] ∧ panelSingle.current = 0 ∧
     ((wSwitchPanelSelectNext default 0 0 panelSingle true true true).2 = some winClassA ∧
      (wSwitchPanelSelectNext default 0 0 panelSingle true true true).1.current = 0)) :=
  ⟨⟨by decide, by decide,
    C7_cycle_closure.1 default 0 0 false panelTwoClasses (by decide) (by decide)⟩,
   ⟨rfl, rfl, C7_cycle_closure.2 default 0 0 true true true panelSingle winClassA rfl rfl⟩⟩

/-! Decomposition of the partition loop (claims C5, C6). -/

theorem partitionLoop_fst (prefs : WMPrefs) (target : Nat) :
    ∀ (ws : List WWindow) (apps : List WApplication) (foc : Option WWindow),
      (partitionLoop prefs target ws apps foc).1 = ws.map (partitionOne prefs target) := by
  intro ws
  induction ws with
  | nil => intro apps foc; rfl
  | cons w rest ih =>
    intro apps foc
    rw [partitionLoop]
    dsimp only
    rw [List.map_cons]
    exact congrArg _ (ih _ _)

theorem partitionLoop_foc_some (prefs : WMPrefs) (target : Nat) :
    ∀ (ws : List WWindow) (apps : List WApplication) (f : WWindow),
      (partitionLoop prefs target ws apps (some f)).2.2 = some f := by
  intro ws
  induction ws with
  | nil => intro apps f; rfl
  | cons w rest ih =>
    intro apps f
    rw [partitionLoop]
    dsimp only
    simp only [Option.isNone_some, Bool.and_false, Bool.false_eq_true, if_false]
    exact ih _ _

/-- The focus candidate computed by the partition loop is the first
selected unminiaturized window, moved to the target workspace. -/
theorem partitionLoop_foc (prefs : WMPrefs) (target : Nat) :
    ∀ (ws : List WWindow) (apps : List WApplication),
      (partitionLoop prefs target ws apps none).2.2 =
        (ws.find? fun w => w.selected && !w.miniaturized).map
          fun w => wWindowChangeWorkspace w target := by
  intro ws
  induction ws with
  | nil => intro apps; rfl
  | cons w rest ih =>
    intro apps
    rw [partitionLoop]
    dsimp only
    by_cases hsel : (w.selected && !w.miniaturized) = true
    · rw [@List.find?_cons_of_pos _ (fun v => v.selected && !v.miniaturized) w rest hsel]
      simp only [hsel, Option.isNone_none, Bool.and_true, if_pos]
      rw [partitionLoop_foc_some]
      rfl
    · rw [@List.find?_cons_of_neg _ (fun v => v.selected && !v.miniaturized) w rest hsel]
      have h2 : (w.selected && !w.miniaturized) = false := Bool.eq_false_iff.mpr hsel
      simp only [h2, Bool.false_and, Bool.false_eq_true, if_false]
      exact ih _

/-- C5 amended: an omnipresent window that is not recorded on the target
workspace and not selected is never unmapped and never queued; the
transition changes nothing of it except its recorded workspace index,
which is set to the target (its owning application's last active
workspace is updated separately in the application list).  The window is
left at the same position of the registry. -/
theorem C5_omnipresent_only_workspace (prefs : WMPrefs) (scr : WScreen) (workspace : Int)
    (focus_win : Option WWindow) (i : Nat) (w : WWindow)
    (hg : ¬(workspace ≥ (MAX_WORKSPACES : Int) ∨ workspace < 0 ∨
        workspace = (scr.current_workspace : Int)))
    (hw : scr.windows[i]? = some w)
    (h1 : w.omnipresent = true) (h2 : w.workspace ≠ workspace.toNat) (h3 : w.selected = false) :
    (wWorkspaceForceChange prefs scr workspace focus_win id).scr.windows[i]? =
      some { w with workspace := workspace.toNat } := by
  have hne : scr.windows ≠ [] := by
    intro hnil
    rw [hnil] at hw
    cases hw
  obtain ⟨v, rest, hwe⟩ := List.exists_cons_of_ne_nil hne
  rw [wWorkspaceForceChange, if_neg hg]
  dsimp only
  rw [saveFocusSnapshotStep_windows, growStep_windows, hwe]
  dsimp only [id]
  rw [applyMapsUnmaps, partitionLoop_fst, List.map_map, ← hwe, List.getElem?_map, hw]
  simp only [Option.map_some', Function.comp_apply]
  have hb2 : (w.workspace != workspace.toNat) = true := by simp [h2]
  rw [partitionOne, if_pos (by simp [hb2, h3]), applyQueueEntry]
  simp only [h1, if_pos, Bool.not_true, Bool.false_and, Bool.and_false, Bool.false_eq_true,
    if_false]

/-- An omnipresent unmapped window already recorded on the target
workspace. -/
def winOmniOnTarget : WWindow :=
  { wWindowCreate with client_win := 21, workspace := 1, omnipresent := true }

/-- A screen whose only window is the omnipresent one above. -/
def scrOmni : WScreen :=
  { workspaces := [plainWorkspace "Workspace 1", plainWorkspace "Workspace 2"],
    current_workspace := 0, last_workspace := 0, windows := [winOmniOnTarget], apps := [],
    ignore_focus_events := false, startup := false, startup2 := false }

/-- C5 counterexample: the transition to workspace 1 maps the
omnipresent unmapped window that is already recorded on workspace 1 (it
is queued with the other target-workspace windows at part_001 lines
675-679), so its mapped state is altered by the transition,
contradicting the claim for every omnipresent window. -/
theorem C5_omnipresent_mapped_changed :
    winOmniOnTarget.omnipresent = true ∧ winOmniOnTarget.mapped = false ∧
    (wWorkspaceForceChange default scrOmni 1 none id).scr.windows.map WWindow.mapped =
      [true] := by decide

/-- An omnipresent window on another workspace, used by the C5
witness. -/
def winOmniElsewhere : WWindow :=
  { wWindowCreate with client_win := 22, workspace := 0, omnipresent := true, mapped := true }

/-- The witness screen for C5. -/
def scrOmni2 : WScreen := { scrOmni with windows := [winOmniElsewhere] }

/-- C5 witness: the amended theorem at the concrete omnipresent window
recorded on workspace 0 while switching to workspace 1; only its
workspace field changes. -/
theorem C5_omnipresent_only_workspace_witness :
    ¬((1 : Int) ≥ (MAX_WORKSPACES : Int) ∨ (1 : Int) < 0 ∨
        (1 : Int) = (scrOmni2.current_workspace : Int)) ∧
    scrOmni2.windows[0]? = some winOmniElsewhere ∧
    winOmniElsewhere.omnipresent = true ∧
    winOmniElsewhere.workspace ≠ (1 : Int).toNat ∧
    winOmniElsewhere.selected = false ∧
    (wWorkspaceForceChange default scrOmni2 1 none id).scr.windows[0]? =
      some { winOmniElsewhere with workspace := (1 : Int).toNat } :=
  ⟨by decide, by decide, by decide, by decide, by decide,
   C5_omnipresent_only_workspace default scrOmni2 1 none 0 winOmniElsewhere (by decide)
     (by decide) (by decide) (by decide) (by decide)⟩

/-! Focus resolution after a transition (claim C6).  The claim-side
resolution policy is written out from the specification sentences and
compared with the focus the embedded transition hands to wSetFocusTo. -/

/-- The preference order claimed by the spec: the explicit caller
supplied target, else the selected-and-moved candidate, else the saved
snapshot of the target workspace. -/
def claimFocusCandidate (explicit selectedMoved snapshot : Option WWindow) : Option WWindow :=
  match explicit with
  | some f => some f
  | none =>
    match selectedMoved with
    | some w => some w
    | none => snapshot

/-- The claimed re-validation: the chosen candidate is looked up in the
current registry by its stable id; no match, or a hidden match, clears
the focus. -/
def claimFocusValidate (registry : List WWindow) : Option WWindow → Option WWindow
  | none => none
  | some c =>
    match registry.find? fun p => p.client_win == c.client_win with
    | none => none
    | some p => if p.hidden then none else some p

/-- The first selected unminiaturized window of the traversal, moved to
the target workspace: the focus candidate the code actually collects. -/
def firstSelectedUnminiaturized (target : Nat) (ws : List WWindow) : Option WWindow :=
  (ws.find? fun w => w.selected && !w.miniaturized).map fun w => wWindowChangeWorkspace w target

/-- The candidate exactly as the claim words it: the first
selected-and-moved window of the traversal, with no unminiaturized
restriction. -/
def firstSelectedAsStated (target : Nat) (ws : List WWindow) : Option WWindow :=
  (ws.find? fun w => w.selected).map fun w => wWindowChangeWorkspace w target

/-- C6 amended: for every transition over a non-empty registry and every
behaviour of the event flush, the focus handed to wSetFocusTo is exactly
the claimed resolution with the selected-and-moved candidate restricted
to the first selected unminiaturized window: explicit target first, else
that candidate, else the target workspace snapshot, the result
re-validated by stable id against the post-flush registry, with no match
or a hidden match clearing the focus. -/
theorem C6_focus_resolution (prefs : WMPrefs) (scr : WScreen) (workspace : Int)
    (focus_win : Option WWindow) (pending : List WWindow → List WWindow)
    (hg : ¬(workspace ≥ (MAX_WORKSPACES : Int) ∨ workspace < 0 ∨
        workspace = (scr.current_workspace : Int)))
    (hne : scr.windows ≠ []) :
    (wWorkspaceForceChange prefs scr workspace focus_win pending).focusSet =
      some (claimFocusValidate
        (wWorkspaceForceChange prefs scr workspace focus_win pending).scr.windows
        (claimFocusCandidate focus_win
          (firstSelectedUnminiaturized workspace.toNat scr.windows)
          (((wWorkspaceForceChange prefs scr workspace focus_win pending).scr.workspaces.getD
              workspace.toNat default).focused_window))) := by
  obtain ⟨v, rest, hwe⟩ := List.exists_cons_of_ne_nil hne
  rw [wWorkspaceForceChange, if_neg hg]
  dsimp only
  rw [saveFocusSnapshotStep_windows, growStep_windows, hwe]
  dsimp only
  rw [firstSelectedUnminiaturized, ← partitionLoop_foc prefs workspace.toNat (v :: rest)
    (saveFocusSnapshotStep (growStep prefs scr workspace)).apps]
  cases focus_win with
  | some f =>
    dsimp only [claimFocusCandidate, claimFocusValidate]
  | none =>
    cases hfoc : (partitionLoop prefs workspace.toNat (v :: rest)
        (saveFocusSnapshotStep (growStep prefs scr workspace)).apps none).2.2 with
    | some u =>
      dsimp only [claimFocusCandidate, claimFocusValidate]
    | none =>
      dsimp only [claimFocusCandidate]
      cases hsnap : ((saveFocusSnapshotStep (growStep prefs scr workspace)).workspaces.getD
          workspace.toNat default).focused_window with
      | some c =>
        dsimp only [claimFocusValidate]
      | none =>
        dsimp only [claimFocusValidate]

/-- A selected but miniaturized window: first in traversal order. -/
def winSelMin : WWindow :=
  { wWindowCreate with client_win := 31, selected := true, miniaturized := true }

/-- A selected unminiaturized window: second in traversal order. -/
def winSelNorm : WWindow :=
  { wWindowCreate with client_win := 32, selected := true, mapped := true }

/-- A screen with the two selected windows on workspace 0. -/
def scrFocus : WScreen :=
  { workspaces := [plainWorkspace "Workspace 1", plainWorkspace "Workspace 2"],
    current_workspace := 0, last_workspace := 0, windows := [winSelMin, winSelNorm],
    apps := [], ignore_focus_events := false, startup := false, startup2 := false }

/-- C6 counterexample: with no explicit target, the claim as stated
resolves the focus to the first selected-and-moved window (the
miniaturized one, id 31), but the code skips miniaturized candidates and
hands the second selected window (id 32) to wSetFocusTo, so the claimed
resolution differs from the code at this input. -/
theorem C6_first_selected_counterexample :
    (wWorkspaceForceChange default scrFocus 1 none id).focusSet ≠
      some (claimFocusValidate
        (wWorkspaceForceChange default scrFocus 1 none id).scr.windows
        (claimFocusCandidate none
          (firstSelectedAsStated 1 scrFocus.windows)
          (((wWorkspaceForceChange default scrFocus 1 none id).scr.workspaces.getD 1
              default).focused_window))) := by decide

/-- C6 witness: the amended resolution at the concrete screen; the
chosen focus is the validated first selected unminiaturized window. -/
theorem C6_focus_resolution_witness :
    scrFocus.windows ≠ [] ∧
    (wWorkspaceForceChange default scrFocus 1 none id).focusSet =
      some (claimFocusValidate
        (wWorkspaceForceChange default scrFocus 1 none id).scr.windows
        (claimFocusCandidate none
          (firstSelectedUnminiaturized (1 : Int).toNat scrFocus.windows)
          (((wWorkspaceForceChange default scrFocus 1 none id).scr.workspaces.getD
              (1 : Int).toNat default).focused_window))) :=
  ⟨by decide, C6_focus_resolution default scrFocus 1 none id (by decide) (by decide)⟩

end NextSpace
